import Mathlib

/-!
A shallow embedding of the query pipeline of a terminal SQL client
(src/db/query.rs, src/app/history.rs, src/app/state.rs): cell decoding,
result assembly, the DATE-cast query rewriter, the query history store and
the non-blocking run loop, together with theorems settling the
specification claims about them.

Strings are modelled at the level Rust works at: operations that return or
consume byte offsets account for the UTF-8 byte length of every character,
and byte slicing of a string is partial (it panics outside character
boundaries), which the `RustResult` type makes explicit.
-/

namespace SqlTui

/-- Outcome of a Rust computation that can panic. -/
inductive RustResult (α : Type) where
  | ok (a : α)
  | panicked
deriving DecidableEq

def RustResult.map {α β : Type} (f : α → β) : RustResult α → RustResult β
  | .ok a => .ok (f a)
  | .panicked => .panicked

/-- UTF-8 encoded byte length of one character. -/
def utf8Len (c : Char) : Nat :=
  if c.toNat < 0x80 then 1
  else if c.toNat < 0x800 then 2
  else if c.toNat < 0x10000 then 3
  else 4

theorem utf8Len_pos (c : Char) : 0 < utf8Len c := by
  unfold utf8Len
  repeat' split
  all_goals omega

/-- UTF-8 byte length of a character list. -/
def utf8LenList (l : List Char) : Nat := (l.map utf8Len).sum

/-- Rust `str::len`: the byte length of a string. -/
def byteLen (s : String) : Nat := utf8LenList s.data

/-- Models Rust `char::to_uppercase` (full Unicode uppercasing, possibly
multi-character). Exact on ASCII and on the explicitly listed
special-cased characters; every other character is approximated by
`Char.toUpper`, which agrees with Unicode for all characters appearing in
this development. -/
def charUpperRust (c : Char) : List Char :=
  if c = 'ŉ' then ['ʼ', 'N']
  else if c = 'ß' then ['S', 'S']
  else if c = 'ﬁ' then ['F', 'I']
  else if c = 'ﬂ' then ['F', 'L']
  else [c.toUpper]

/-- Models Rust `str::to_uppercase`: the concatenation of the per-character
full uppercase mappings. -/
def rustToUpper (s : String) : String := ⟨(s.data.map charUpperRust).flatten⟩

/-- ASCII whitespace, as used by `str::trim` on the inputs considered. -/
def isWs (c : Char) : Bool :=
  c == ' ' || c == '\t' || c == '\n' || c == '\r'

def trimList (l : List Char) : List Char :=
  ((l.dropWhile isWs).reverse.dropWhile isWs).reverse

/-- Rust `str::trim`. -/
def rustTrim (s : String) : String := ⟨trimList s.data⟩

/-- Rust `str::starts_with`. -/
def rustStartsWith (s pre : String) : Bool := pre.data.isPrefixOf s.data

/-- Rust `str::contains`. A well-formed UTF-8 pattern matches the UTF-8
encoding of a text only at character boundaries, so the character-level
scan is faithful to the byte-level Rust search. -/
def containsList (pat : List Char) : List Char → Bool
  | [] => pat.isEmpty
  | c :: rest => pat.isPrefixOf (c :: rest) || containsList pat rest

def rustContains (s pat : String) : Bool := containsList pat.data s.data

/-- Rust `str::find`: the byte offset of the first occurrence of the
pattern, if any. -/
def findList (pat : List Char) : List Char → Option Nat
  | [] => if pat.isEmpty then some 0 else none
  | c :: rest =>
    if pat.isPrefixOf (c :: rest) then some 0
    else (findList pat rest).map (· + utf8Len c)

def rustFind (s pat : String) : Option Nat := findList pat.data s.data

/-- Rust byte slicing `&s[b..]`: panics when `b` lies past the end of the
string or does not fall on a character boundary. -/
def sliceFromList : List Char → Nat → RustResult (List Char)
  | l, 0 => .ok l
  | [], _ + 1 => .panicked
  | c :: rest, b + 1 =>
    if b + 1 < utf8Len c then .panicked
    else sliceFromList rest (b + 1 - utf8Len c)

def rustSliceFrom (s : String) (b : Nat) : RustResult String :=
  (sliceFromList s.data b).map (fun l => ⟨l⟩)

/-- Rust `str::replace`: every non-overlapping occurrence of the pattern,
scanned left to right, is replaced. (Rust additionally matches an empty
pattern at every boundary; no pattern arising in this development is
empty, and the model leaves the text unchanged in that case.) The `fuel`
argument only bounds the recursion; every step consumes at least one
character, so fuel equal to the text length never runs out. -/
def replaceListAux (pat rep : List Char) : Nat → List Char → List Char
  | 0, l => l
  | _, [] => []
  | fuel + 1, c :: rest =>
    if pat.isPrefixOf (c :: rest) ∧ pat ≠ [] then
      rep ++ replaceListAux pat rep fuel (rest.drop (pat.length - 1))
    else
      c :: replaceListAux pat rep fuel rest

def replaceList (pat rep s : List Char) : List Char :=
  replaceListAux pat rep s.length s

def rustReplace (s pat rep : String) : String :=
  ⟨replaceList pat.data rep.data s.data⟩

/-! ## Value model and row decoder (src/db/query.rs) -/

/-- Opaque model of an IEEE 754 double held by the driver; `disp` stands
for its fixed-6-precision rendering as produced by the Rust formatter,
which the claims never inspect. -/
structure F64 where
  disp : String
deriving DecidableEq

/-- Opaque model of a `tiberius::numeric::Numeric` value; `render` is its
exact textual form as produced by `to_string`. -/
structure NumericVal where
  render : String
deriving DecidableEq

/-- Opaque model of a `tiberius::Uuid`; `render` is its canonical string
form. -/
structure GuidVal where
  render : String
deriving DecidableEq

/-- A `chrono::NaiveDateTime` value. -/
structure NaiveDT where
  year : Nat
  month : Nat
  day : Nat
  hour : Nat
  minute : Nat
  second : Nat
deriving DecidableEq

def pad2 (n : Nat) : String := if n < 10 then "0" ++ toString n else toString n

def pad4 (n : Nat) : String :=
  if n < 10 then "000" ++ toString n
  else if n < 100 then "00" ++ toString n
  else if n < 1000 then "0" ++ toString n
  else toString n

/-- chrono format `%Y-%m-%d %H:%M:%S`. -/
def fmtFull (d : NaiveDT) : String :=
  pad4 d.year ++ "-" ++ pad2 d.month ++ "-" ++ pad2 d.day ++ " " ++
    pad2 d.hour ++ ":" ++ pad2 d.minute ++ ":" ++ pad2 d.second

/-- chrono format `%Y-%m-%d`. -/
def fmtDate (d : NaiveDT) : String :=
  pad4 d.year ++ "-" ++ pad2 d.month ++ "-" ++ pad2 d.day

/-- chrono format `%H:%M:%S`. -/
def fmtTime (d : NaiveDT) : String :=
  pad2 d.hour ++ ":" ++ pad2 d.minute ++ ":" ++ pad2 d.second

/-- `CellValue`: a cell value in the result set. -/
inductive CellValue where
  | Null
  | Bool (b : Bool)
  | Int (v : Int)
  | Float (x : F64)
  | String (s : String)
  | DateTime (s : String)
  | Binary (bs : List Nat)
deriving DecidableEq

def hexDigit (n : Nat) : Char :=
  if n < 10 then Char.ofNat (48 + n) else Char.ofNat (55 + n)

/-- The repository's `hex::encode` helper: uppercase `{:02X}` per byte. -/
def hexEncode (bs : List Nat) : String :=
  ⟨(bs.map (fun b => [hexDigit (b / 16 % 16), hexDigit (b % 16)])).flatten⟩

/-- The `Display` impl of `CellValue`. -/
def cellDisplay : CellValue → String
  | .Null => "NULL"
  | .Bool v => if v then "true" else "false"
  | .Int v => toString v
  | .Float x => x.disp
  | .String v => v
  | .DateTime v => v
  | .Binary v => "0x" ++ hexEncode v

/-- `tiberius::ColumnType`: the wire-type tag of a column. -/
inductive ColumnType where
  | null | bit | int1 | int2 | int4 | int8
  | datetime4 | float4 | float8 | money | datetime | money4
  | guid | intn | bitn | decimaln | numericn | floatn
  | datetimen | daten | timen | datetime2 | datetimeOffsetn
  | bigVarBin | bigVarChar | bigBinary | bigChar
  | nvarchar | nchar | xml | udt | text | image | ntext | ssVariant
deriving DecidableEq

/-- Rust `{:?}` rendering of a `ColumnType`, as used by the decoder's
last-resort fallback. -/
def columnTypeDebug : ColumnType → String
  | .null => "Null" | .bit => "Bit" | .int1 => "Int1" | .int2 => "Int2"
  | .int4 => "Int4" | .int8 => "Int8" | .datetime4 => "Datetime4"
  | .float4 => "Float4" | .float8 => "Float8" | .money => "Money"
  | .datetime => "Datetime" | .money4 => "Money4" | .guid => "Guid"
  | .intn => "Intn" | .bitn => "Bitn" | .decimaln => "Decimaln"
  | .numericn => "Numericn" | .floatn => "Floatn" | .datetimen => "Datetimen"
  | .daten => "Daten" | .timen => "Timen" | .datetime2 => "Datetime2"
  | .datetimeOffsetn => "DatetimeOffsetn" | .bigVarBin => "BigVarBin"
  | .bigVarChar => "BigVarChar" | .bigBinary => "BigBinary"
  | .bigChar => "BigChar" | .nvarchar => "NVarchar" | .nchar => "NChar"
  | .xml => "Xml" | .udt => "Udt" | .text => "Text" | .image => "Image"
  | .ntext => "NText" | .ssVariant => "SSVariant"

/-- `format_column_type`: the displayed SQL type name of a column. -/
def formatColumnType : ColumnType → String
  | .null => "NULL" | .bit => "BIT" | .int1 => "TINYINT"
  | .int2 => "SMALLINT" | .int4 => "INT" | .int8 => "BIGINT"
  | .float4 => "REAL" | .float8 => "FLOAT" | .datetime => "DATETIME"
  | .datetime2 => "DATETIME2" | .datetimeOffsetn => "DATETIMEOFFSET"
  | .daten => "DATE" | .timen => "TIME" | .decimaln => "DECIMAL"
  | .numericn => "NUMERIC" | .money => "MONEY" | .money4 => "SMALLMONEY"
  | .guid => "UNIQUEIDENTIFIER" | .bigVarChar => "VARCHAR(MAX)"
  | .bigChar => "CHAR" | .nvarchar => "NVARCHAR" | .nchar => "NCHAR"
  | .text => "TEXT" | .ntext => "NTEXT" | .bigVarBin => "VARBINARY(MAX)"
  | .bigBinary => "BINARY" | .image => "IMAGE" | .xml => "XML"
  | _ => "UNKNOWN"

/-- Modelled from the spec: the raw, driver-level data of one cell as it
arrives on the wire (one `tiberius::ColumnData` value). -/
inductive RawCell where
  | null
  | bool (b : Bool)
  | u8 (n : Nat)
  | i16 (n : Int)
  | i32 (n : Int)
  | i64 (n : Int)
  | f32 (x : F64)
  | f64 (x : F64)
  | numeric (x : NumericVal)
  | str (s : String)
  | datetime (d : NaiveDT)
  | guid (g : GuidVal)
  | binary (bs : List Nat)
deriving DecidableEq

/-! Modelled from the spec: the driver accessors `Row::get` /
`Row::try_get` used by the decoder. Per the specification, a cell that is
SQL NULL or cannot be decoded as the requested Rust type yields no value
(the source collapses both cases into `CellValue::Null` via
`.map(..).unwrap_or(CellValue::Null)` and `.ok().flatten()`). -/

def getBool : RawCell → Option Bool
  | .bool b => some b
  | _ => none

def getU8 : RawCell → Option Nat
  | .u8 n => some n
  | _ => none

def getI16 : RawCell → Option Int
  | .i16 n => some n
  | _ => none

def getI32 : RawCell → Option Int
  | .i32 n => some n
  | _ => none

def getI64 : RawCell → Option Int
  | .i64 n => some n
  | _ => none

def getF32 : RawCell → Option F64
  | .f32 x => some x
  | _ => none

def getF64 : RawCell → Option F64
  | .f64 x => some x
  | _ => none

def getNumeric : RawCell → Option NumericVal
  | .numeric x => some x
  | _ => none

def getStr : RawCell → Option String
  | .str s => some s
  | _ => none

def getNaiveDT : RawCell → Option NaiveDT
  | .datetime d => some d
  | _ => none

def getGuid : RawCell → Option GuidVal
  | .guid g => some g
  | _ => none

def getBytes : RawCell → Option (List Nat)
  | .binary bs => some bs
  | _ => none

/-- `extract_cell_value`: decode one raw cell according to the declared
column wire type. -/
def extractCellValue (t : ColumnType) (c : RawCell) : CellValue :=
  match t with
  | .null => .Null
  | .bit => ((getBool c).map CellValue.Bool).getD .Null
  | .int1 => ((getU8 c).map (fun v => CellValue.Int (Int.ofNat v))).getD .Null
  | .int2 => ((getI16 c).map CellValue.Int).getD .Null
  | .int4 => ((getI32 c).map CellValue.Int).getD .Null
  | .int8 => ((getI64 c).map CellValue.Int).getD .Null
  | .float4 => ((getF32 c).map CellValue.Float).getD .Null
  | .float8 => ((getF64 c).map CellValue.Float).getD .Null
  | .decimaln => ((getNumeric c).map (fun v => CellValue.String v.render)).getD .Null
  | .numericn => ((getNumeric c).map (fun v => CellValue.String v.render)).getD .Null
  | .money => ((getF64 c).map CellValue.Float).getD .Null
  | .money4 => ((getF64 c).map CellValue.Float).getD .Null
  | .datetime => ((getNaiveDT c).map (fun v => CellValue.DateTime (fmtFull v))).getD .Null
  | .datetime2 => ((getNaiveDT c).map (fun v => CellValue.DateTime (fmtFull v))).getD .Null
  | .daten => ((getNaiveDT c).map (fun v => CellValue.DateTime (fmtDate v))).getD .Null
  | .timen => ((getNaiveDT c).map (fun v => CellValue.DateTime (fmtTime v))).getD .Null
  | .bigVarChar => ((getStr c).map CellValue.String).getD .Null
  | .bigChar => ((getStr c).map CellValue.String).getD .Null
  | .nvarchar => ((getStr c).map CellValue.String).getD .Null
  | .nchar => ((getStr c).map CellValue.String).getD .Null
  | .text => ((getStr c).map CellValue.String).getD .Null
  | .ntext => ((getStr c).map CellValue.String).getD .Null
  | .xml => ((getStr c).map CellValue.String).getD .Null
  | .guid => ((getGuid c).map (fun v => CellValue.String v.render)).getD .Null
  | .bigVarBin => ((getBytes c).map CellValue.Binary).getD .Null
  | .bigBinary => ((getBytes c).map CellValue.Binary).getD .Null
  | .image => ((getBytes c).map CellValue.Binary).getD .Null
  | .datetime4 => fallbackProbe .datetime4 c
  | .intn => fallbackProbe .intn c
  | .bitn => fallbackProbe .bitn c
  | .floatn => fallbackProbe .floatn c
  | .datetimen => fallbackProbe .datetimen c
  | .datetimeOffsetn => fallbackProbe .datetimeOffsetn c
  | .udt => fallbackProbe .udt c
  | .ssVariant => fallbackProbe .ssVariant c
where
  /-- The source's `_` arm: try string, then datetime, then i64, then f64,
  then numeric; if everything fails, render the type tag in brackets. -/
  fallbackProbe (t : ColumnType) (c : RawCell) : CellValue :=
    match getStr c with
    | some v => .String v
    | none =>
      match getNaiveDT c with
      | some v => .DateTime (fmtFull v)
      | none =>
        match getI64 c with
        | some v => .Int v
        | none =>
          match getF64 c with
          | some v => .Float v
          | none =>
            match getNumeric c with
            | some v => .String v.render
            | none => .String ("<" ++ columnTypeDebug t ++ ">")

/-! ## Result assembly (QueryExecutor::process_results) -/

/-- `ColumnInfo`: column metadata. -/
structure ColumnInfo where
  name : String
  type_name : String
  max_width : Nat
deriving DecidableEq

/-- `QueryResult`. `execution_time` models the `Duration` as a whole
number of milliseconds. -/
structure QueryResult where
  columns : List ColumnInfo
  rows : List (List CellValue)
  row_count : Nat
  execution_time : Nat
  affected_rows : Option Nat
  messages : List String
deriving DecidableEq

/-- `QueryResult::empty`. -/
def QueryResult.empty : QueryResult :=
  { columns := [], rows := [], row_count := 0, execution_time := 0,
    affected_rows := none, messages := [] }

/-- One column of a driver `Row`: its name and wire type. -/
structure DriverCol where
  name : String
  ty : ColumnType
deriving DecidableEq

/-- One driver `Row`: its columns paired with the raw cell data, which in
the driver always agree in number. -/
structure DriverRow where
  cells : List (DriverCol × RawCell)
deriving DecidableEq

/-- The `columns` snapshot taken from the first row encountered. -/
def initColumns (row : DriverRow) : List ColumnInfo :=
  row.cells.map (fun p =>
    { name := p.1.name, type_name := formatColumnType p.1.ty,
      max_width := max (byteLen p.1.name) 4 })

/-- The inner per-row loop of `process_results`: decode each cell in
column order, updating `max_width` of column `i` when `i` is in range. -/
def processCells (cols : List ColumnInfo) (i : Nat) :
    List (DriverCol × RawCell) → List ColumnInfo × List CellValue
  | [] => (cols, [])
  | p :: rest =>
    let value := extractCellValue p.1.ty p.2
    let valueLen := byteLen (cellDisplay value)
    let cols1 :=
      if h : i < cols.length then
        cols.set i (let c := cols.get ⟨i, h⟩; { c with max_width := max c.max_width valueLen })
      else cols
    let out := processCells cols1 (i + 1) rest
    (out.1, value :: out.2)

/-- One iteration of the row loop of `process_results`. -/
def processRow (acc : List ColumnInfo × List (List CellValue)) (row : DriverRow) :
    List ColumnInfo × List (List CellValue) :=
  let cols0 := if acc.1.isEmpty then initColumns row else acc.1
  let out := processCells cols0 0 row.cells
  (out.1, acc.2 ++ [out.2])

/-- `QueryExecutor::process_results`: consume every result set and every
row in order. `elapsed` models the measured execution time. -/
def processResults (results : List (List DriverRow)) (elapsed : Nat) : QueryResult :=
  let acc := results.foldl (fun a rs => rs.foldl processRow a) ([], [])
  { columns := acc.1, rows := acc.2, row_count := acc.2.length,
    execution_time := elapsed, affected_rows := none, messages := [] }

/-! ## Date-cast rewriter (src/db/query.rs) -/

/-- `QueryExecutor::is_select_star_query`. -/
def isSelectStarQuery (q : String) : Bool :=
  let trimmed := rustTrim (rustToUpper q)
  rustStartsWith trimmed "SELECT" &&
    (rustContains trimmed "SELECT *" ||
      (rustContains trimmed "SELECT TOP" && rustContains trimmed " * "))

/-- `QueryExecutor::extract_table_name`: the position of ` FROM ` is
computed on the upper-cased copy and then used to slice the original
string, so the slice can panic. -/
def extractTableName (q : String) : RustResult (Option String) :=
  match rustFind (rustToUpper q) " FROM " with
  | none => .ok none
  | some fromPos =>
    match rustSliceFrom q (fromPos + 6) with
    | .panicked => .panicked
    | .ok afterFrom =>
      let tablePart : List Char :=
        (rustTrim afterFrom).data.takeWhile
          (fun c => !(isWs c) && c != '(' && c != ';')
      if tablePart.isEmpty then .ok none else .ok (some ⟨tablePart⟩)

/-- Rust `str::split('.')`. -/
def splitDot (l : List Char) : List String :=
  match l with
  | [] => [""]
  | c :: rest =>
    let tail := splitDot rest
    if c = '.' then "" :: tail
    else
      match tail with
      | [] => [⟨[c]⟩]
      | s :: ss => (⟨c :: s.data⟩ : String) :: ss

/-- `QueryExecutor::parse_table_name`: strip brackets and split on dots
into an optional schema and a table. -/
def parseTableName (tableName : String) : Option String × String :=
  let clean : String := ⟨tableName.data.filter (fun c => c != '[' && c != ']')⟩
  let parts := splitDot clean.data
  match parts with
  | [t] => (none, t)
  | [s, t] => (some s, t)
  | [_, s, t] => (some s, t)
  | _ => (none, clean)

/-- Modelled from the spec: the catalog (`INFORMATION_SCHEMA.COLUMNS`)
round trips issued by the rewriter, keyed by the parsed schema/table pair
that the source interpolates into the metadata query. `none` models a
failed round trip; row cells are `Option`-valued because the source skips
rows whose `get` yields no value. -/
structure Catalog where
  dateCols : Option String × String → Option (List (Option String))
  allCols : Option String × String → Option (List (Option String × Option String))

/-- `QueryExecutor::get_date_columns`: names of the DATE-typed columns of
the table, per the catalog. -/
def getDateColumns (cat : Catalog) (tableName : String) : Option (List String) :=
  (cat.dateCols (parseTableName tableName)).map (fun rows => rows.filterMap id)

/-- The cast expression the rewriter substitutes for a DATE column. -/
def convertFor (col : String) : String :=
  "CONVERT(VARCHAR(10), [" ++ col ++ "], 23) AS [" ++ col ++ "]"

/-- `QueryExecutor::build_select_with_casts`: rebuild a `SELECT *` query
with every DATE column cast to VARCHAR, keeping any `TOP n` clause and
everything from ` FROM ` onward. -/
def buildSelectWithCasts (cat : Catalog) (originalQuery tableName : String)
    (dateColumns : List String) : RustResult (Option String) :=
  match cat.allCols (parseTableName tableName) with
  | none => .ok none
  | some rows =>
    let columnDefs : List String := rows.filterMap (fun r =>
      match r with
      | (some colName, some _) =>
        some (if dateColumns.contains colName then convertFor colName
              else "[" ++ colName ++ "]")
      | _ => none)
    if columnDefs.isEmpty then .ok none
    else
      let queryUpper := rustToUpper originalQuery
      let topClause : RustResult String :=
        match rustFind queryUpper "TOP " with
        | some topPos =>
          match rustSliceFrom originalQuery (topPos + 4) with
          | .panicked => .panicked
          | .ok afterTop =>
            let topValue : List Char :=
              (rustTrim afterTop).data.takeWhile (fun c => c.isDigit || c == ' ')
            .ok ("TOP " ++ rustTrim ⟨topValue⟩ ++ " ")
        | none => .ok ""
      match topClause with
      | .panicked => .panicked
      | .ok topC =>
        match rustFind queryUpper " FROM " with
        | none => .ok none
        | some fromPos =>
          match rustSliceFrom originalQuery fromPos with
          | .panicked => .panicked
          | .ok afterFrom =>
            .ok (some ("SELECT " ++ topC ++
              String.intercalate ",\n    " columnDefs ++ "\n" ++ rustTrim afterFrom))

/-- `QueryExecutor::try_fix_date_columns`. -/
def tryFixDateColumns (cat : Catalog) (q : String) : RustResult (Option String) :=
  let queryUpper := rustToUpper q
  if !(rustStartsWith (rustTrim queryUpper) "SELECT") then .ok none
  else
    match extractTableName q with
    | .panicked => .panicked
    | .ok none => .ok none
    | .ok (some tableName) =>
      match getDateColumns cat tableName with
      | none => .ok none
      | some dateColumns =>
        if dateColumns.isEmpty then .ok none
        else if rustContains queryUpper "SELECT *" ||
            (rustContains queryUpper "SELECT TOP" && rustContains queryUpper "*") then
          buildSelectWithCasts cat q tableName dateColumns
        else
          let fixedQuery := dateColumns.foldl (fun txt col =>
            if rustContains txt ("[" ++ col ++ "]") then
              rustReplace txt ("[" ++ col ++ "]") (convertFor col)
            else if rustContains txt col then
              rustReplace txt col (convertFor col)
            else txt) q
          if fixedQuery ≠ q then .ok (some fixedQuery) else .ok none

/-- The query text `QueryExecutor::execute` sends to the connection: the
rewriter output for `SELECT *`-shaped queries when it produced one, the
input text otherwise. -/
def queryToExecute (cat : Catalog) (q : String) : RustResult String :=
  if isSelectStarQuery q then
    match tryFixDateColumns cat q with
    | .panicked => .panicked
    | .ok (some fixed) => .ok fixed
    | .ok none => .ok q
  else .ok q

/-! ## Query history (src/app/history.rs) -/

/-- `HistoryEntry`. The timestamp models `DateTime<Local>` as an abstract
tick count. -/
structure HistoryEntry where
  query : String
  timestamp : Nat
  execution_time_ms : Nat
  row_count : Option Nat
  database : String
deriving DecidableEq

/-- `QueryHistory`. Persistence (`load`/`save`) is best-effort I/O whose
failures the source ignores; it does not affect the in-memory state
modelled here. -/
structure QueryHistory where
  entries : List HistoryEntry
  maxEntries : Nat
  currentIndex : Option Nat
deriving DecidableEq

/-- The `while self.entries.len() > self.max_entries` eviction loop:
repeatedly `remove(0)`. -/
def evictOldest : List HistoryEntry → Nat → List HistoryEntry
  | [], _ => []
  | e :: rest, maxE =>
    if (e :: rest).length > maxE then evictOldest rest maxE else e :: rest

/-- `QueryHistory::add`. `now` stands for `Local::now()`. -/
def QueryHistory.add (h : QueryHistory) (query : String) (execMs : Nat)
    (rowCount : Option Nat) (database : String) (now : Nat) : QueryHistory :=
  let dup : Bool :=
    match h.entries.getLast? with
    | some last => rustTrim last.query == rustTrim query
    | none => false
  if dup then h
  else
    let entry : HistoryEntry :=
      { query := query, timestamp := now, execution_time_ms := execMs,
        row_count := rowCount, database := database }
    { h with entries := evictOldest (h.entries ++ [entry]) h.maxEntries,
             currentIndex := none }

/-! ## Async bridge / run loop (src/app/state.rs) -/

/-- `ActivePanel`. -/
inductive ActivePanel where
  | queryEditor | results | schemaExplorer | history
deriving DecidableEq

/-- The slice of `App` state that the query run loop touches. The
`pendingQuery` flag models whether the oneshot receiver slot is occupied;
`database` models `db.config.database`. -/
structure AppState where
  query : String
  isLoading : Bool
  error : Option String
  message : Option String
  spinnerFrame : Nat
  pendingQuery : Bool
  pendingQueryText : Option String
  history : QueryHistory
  result : QueryResult
  resultsScroll : Nat
  resultsSelected : Nat
  activePanel : ActivePanel
  database : String
deriving DecidableEq

/-- `App::start_query` (the spawned background task communicates back only
through the oneshot channel, modelled as input to
`checkQueryCompletion`). -/
def startQuery (s : AppState) : AppState :=
  if rustTrim s.query = "" ∨ s.isLoading then s
  else
    { s with isLoading := true, error := none, message := none,
             spinnerFrame := 0, pendingQuery := true,
             pendingQueryText := some s.query }

/-- What one non-blocking poll of the completion channel observes:
a delivered `Result<QueryResult, String>`, nothing yet, or a closed
channel. -/
inductive ChannelRead where
  | received (r : Except String QueryResult)
  | empty
  | closed

/-- The `{} row(s) returned in {:.2}ms` success message (exact for the
whole-millisecond durations the model carries). -/
def fmtRowsMsg (rowCount ms : Nat) : String :=
  toString rowCount ++ " row(s) returned in " ++ toString ms ++ ".00ms"

/-- `App::check_query_completion`. `now` stands for `Local::now()` at the
moment a history entry is appended. -/
def checkQueryCompletion (s : AppState) (obs : ChannelRead) (now : Nat) : AppState :=
  if s.pendingQuery = false then s
  else
    match obs with
    | .received (.ok qr) =>
      let s1 :=
        match s.pendingQueryText with
        | some queryText =>
          let newHistory :=
            s.history.add queryText qr.execution_time (some qr.row_count) s.database now
          { s with history := newHistory }
        | none => s
      { s1 with
          message := some (fmtRowsMsg qr.row_count qr.execution_time),
          result := qr, resultsScroll := 0, resultsSelected := 0,
          activePanel := .results, isLoading := false,
          pendingQuery := false, pendingQueryText := none }
    | .received (.error msg) =>
      { s with error := some msg, isLoading := false,
               pendingQuery := false, pendingQueryText := none }
    | .empty => s
    | .closed =>
      { s with error := some "Query execution was interrupted",
               isLoading := false, pendingQuery := false,
               pendingQueryText := none }

/-! ## Spec-side definitions

Predicates written from the specification words, to be compared with the
definitions taken from the source. -/

/-- The shape predicate exactly as the specification words it: the
trimmed, upper-cased text starts with `SELECT` and either contains
`SELECT *` or contains both `TOP` and a standalone `*` (a `*` surrounded
by spaces). -/
def specIsSelectStar (q : String) : Bool :=
  let t := rustTrim (rustToUpper q)
  rustStartsWith t "SELECT" &&
    (rustContains t "SELECT *" || (rustContains t "TOP" && rustContains t " * "))

/-- The shape predicate with the one amendment the code forces: the text
must contain `SELECT TOP`, not merely `TOP`. -/
def specIsSelectStarAmended (q : String) : Bool :=
  let t := rustTrim (rustToUpper q)
  rustStartsWith t "SELECT" &&
    (rustContains t "SELECT *" || (rustContains t "SELECT TOP" && rustContains t " * "))

/-- The decoded values of one driver row, in its column order. -/
def rowValues (row : DriverRow) : List CellValue :=
  row.cells.map (fun p => extractCellValue p.1.ty p.2)

/-- The wire types outside the known dispatch table of
`extract_cell_value` (the `_` arm). -/
def fallbackTags : List ColumnType :=
  [.datetime4, .intn, .bitn, .floatn, .datetimen, .datetimeOffsetn, .udt, .ssVariant]

/-- First success of a probe sequence. -/
def firstSome {α : Type} : List (Option α) → Option α
  | [] => none
  | some v :: _ => some v
  | none :: rest => firstSome rest

/-- Spec-side rendering of the fixed probe order: text, then temporal,
then 64-bit integer, then 64-bit float, then decimal-as-text; the first
success wins, and if every probe fails the result is a bracketed
rendering of the type tag. -/
def probeSpec (t : ColumnType) (c : RawCell) : CellValue :=
  match firstSome [(getStr c).map CellValue.String,
      (getNaiveDT c).map (fun v => CellValue.DateTime (fmtFull v)),
      (getI64 c).map CellValue.Int,
      (getF64 c).map CellValue.Float,
      (getNumeric c).map (fun v => CellValue.String v.render)] with
  | some v => v
  | none => .String ("<" ++ columnTypeDebug t ++ ">")

/-- Spec-side: whether the raw cell carries a value decodable as the
declared wire type (for fallback tags: decodable by some probe). -/
def rawDecodeOk (t : ColumnType) (c : RawCell) : Bool :=
  match t with
  | .null => false
  | .bit => (getBool c).isSome
  | .int1 => (getU8 c).isSome
  | .int2 => (getI16 c).isSome
  | .int4 => (getI32 c).isSome
  | .int8 => (getI64 c).isSome
  | .float4 => (getF32 c).isSome
  | .float8 => (getF64 c).isSome
  | .decimaln => (getNumeric c).isSome
  | .numericn => (getNumeric c).isSome
  | .money => (getF64 c).isSome
  | .money4 => (getF64 c).isSome
  | .datetime => (getNaiveDT c).isSome
  | .datetime2 => (getNaiveDT c).isSome
  | .daten => (getNaiveDT c).isSome
  | .timen => (getNaiveDT c).isSome
  | .bigVarChar => (getStr c).isSome
  | .bigChar => (getStr c).isSome
  | .nvarchar => (getStr c).isSome
  | .nchar => (getStr c).isSome
  | .text => (getStr c).isSome
  | .ntext => (getStr c).isSome
  | .xml => (getStr c).isSome
  | .guid => (getGuid c).isSome
  | .bigVarBin => (getBytes c).isSome
  | .bigBinary => (getBytes c).isSome
  | .image => (getBytes c).isSome
  | _ => (getStr c).isSome || (getNaiveDT c).isSome || (getI64 c).isSome ||
      (getF64 c).isSome || (getNumeric c).isSome

/-! ## Concrete instances used by witnesses and counterexamples -/

/-- A one-column driver row. -/
def rowA : DriverRow := ⟨[(⟨"a", .int4⟩, .i32 1)]⟩

/-- A two-column driver row. -/
def rowXY : DriverRow := ⟨[(⟨"x", .int4⟩, .i32 1), (⟨"y", .int4⟩, .i32 2)]⟩

/-- Catalog for table `T` (no schema) with a single DATE column `d`. -/
def catD : Catalog :=
  { dateCols := fun k => if k = (none, "T") then some [some "d"] else none,
    allCols := fun _ => none }

/-- Catalog for table `dbo.T` with columns `A`, `D`, `B`, of which `D` is
the DATE column. -/
def catDboT : Catalog :=
  { dateCols := fun k => if k = (some "dbo", "T") then some [some "D"] else none,
    allCols := fun k =>
      if k = (some "dbo", "T") then
        some [(some "A", some "int"), (some "D", some "date"), (some "B", some "varchar")]
      else none }

/-- Catalog reporting zero DATE columns for table `T`. -/
def catNoDates : Catalog :=
  { dateCols := fun k => if k = (none, "T") then some [] else none,
    allCols := fun _ => none }

/-- A quiescent application state with a nonempty query. -/
def appIdle : AppState :=
  { query := "SELECT 1", isLoading := false, error := none, message := none,
    spinnerFrame := 3, pendingQuery := false, pendingQueryText := none,
    history := ⟨[], 1000, none⟩, result := QueryResult.empty,
    resultsScroll := 0, resultsSelected := 0, activePanel := .queryEditor,
    database := "Staging" }

/-- An application state with a query in flight. -/
def appLoading : AppState :=
  { appIdle with isLoading := true, pendingQuery := true,
                 pendingQueryText := some "SELECT 1" }

/-- A small history with two entries and room for three. -/
def histAB : QueryHistory :=
  ⟨[⟨"SELECT a", 1, 5, some 1, "Staging"⟩, ⟨"SELECT b", 2, 6, some 2, "Staging"⟩],
   3, none⟩

/-! ## Theorems -/

/-- C2 (counterexample): the claimed characterisation demands truth as
soon as the text starts with `SELECT` and contains both `TOP` and a
standalone `*`, but `is_select_star_query` requires the contiguous text
`SELECT TOP`; the two disagree on a query whose `TOP` occurs inside a
table name. -/
theorem c2_counterexample :
    specIsSelectStar "SELECT A FROM PICKTOP WHERE B = C * D" = true ∧
    isSelectStarQuery "SELECT A FROM PICKTOP WHERE B = C * D" = false :=
  ⟨rfl, rfl⟩

/-- C2 (amended): `is_select_star_query` returns true iff the trimmed,
upper-cased text starts with `SELECT` and either contains `SELECT *` or
contains both `SELECT TOP` and a standalone `*`; in particular it is true
for `SELECT * FROM T` and `select top 5 * from T` and false for
`SELECT a,b FROM T`. -/
theorem c2_select_star_shape :
    (∀ q : String, isSelectStarQuery q = specIsSelectStarAmended q) ∧
    isSelectStarQuery "SELECT * FROM T" = true ∧
    isSelectStarQuery "select top 5 * from T" = true ∧
    isSelectStarQuery "SELECT a,b FROM T" = false :=
  ⟨fun _ => rfl, rfl, rfl, rfl⟩

/-- C10: `extract_table_name` is not total. The position of ` FROM ` is
found in the upper-cased copy, whose UTF-8 byte length can differ from
the original (ŉ, two bytes, upper-cases to ʼN, three bytes), and slicing
the original at that byte offset panics; on ASCII queries the same
slicing succeeds. -/
theorem c10_extract_table_name_panics :
    extractTableName "select ŉŉ from x" = RustResult.panicked ∧
    extractTableName "SELECT * FROM dbo.T" = RustResult.ok (some "dbo.T") :=
  ⟨rfl, rfl⟩

/-- C3 (counterexample): on `SELECT d, d FROM T` with DATE column `d`,
`try_fix_date_columns` rewrites BOTH occurrences of `d`, not only the
first: `str::replace` replaces every occurrence. -/
theorem c3_counterexample :
    tryFixDateColumns catD "SELECT d, d FROM T" =
      RustResult.ok (some "SELECT CONVERT(VARCHAR(10), [d], 23) AS [d], CONVERT(VARCHAR(10), [d], 23) AS [d] FROM T") ∧
    ("SELECT CONVERT(VARCHAR(10), [d], 23) AS [d], CONVERT(VARCHAR(10), [d], 23) AS [d] FROM T" : String) ≠
      "SELECT CONVERT(VARCHAR(10), [d], 23) AS [d], d FROM T" :=
  ⟨rfl, by decide⟩

/-- C3 (amended): for a non-`SELECT *`-shaped query referencing the
unsupported date column, `try_fix_date_columns` substitutes the cast
expression for EVERY occurrence of the first matching pattern, by direct
textual substitution — whenever the bracket-quoted `[col]` occurs it is
the chosen pattern (preferred over the bare name, which then stays
untouched as a pattern), and the bare name is substituted only when
`[col]` does not occur. -/
theorem c3_first_pattern_all_occurrences (cat : Catalog) (q tbl col : String)
    (hsel : rustStartsWith (rustTrim (rustToUpper q)) "SELECT" = true)
    (hnotstar : (rustContains (rustToUpper q) "SELECT *" ||
        (rustContains (rustToUpper q) "SELECT TOP" &&
          rustContains (rustToUpper q) "*")) = false)
    (htbl : extractTableName q = RustResult.ok (some tbl))
    (hcat : cat.dateCols (parseTableName tbl) = some [some col]) :
    (rustContains q ("[" ++ col ++ "]") = true →
      rustReplace q ("[" ++ col ++ "]") (convertFor col) ≠ q →
      tryFixDateColumns cat q =
        RustResult.ok (some (rustReplace q ("[" ++ col ++ "]") (convertFor col)))) ∧
    (rustContains q ("[" ++ col ++ "]") = false →
      rustContains q col = true →
      rustReplace q col (convertFor col) ≠ q →
      tryFixDateColumns cat q =
        RustResult.ok (some (rustReplace q col (convertFor col)))) := by
  constructor
  · intro hbr hch
    unfold tryFixDateColumns
    simp only [hsel, Bool.not_true, Bool.false_eq_true, if_false, htbl]
    simp only [getDateColumns, hcat, Option.map, List.filterMap_cons,
      List.filterMap_nil, id_eq, List.isEmpty_cons, Bool.false_eq_true,
      if_false, hnotstar, List.foldl_cons, List.foldl_nil, hbr, if_true]
    rw [if_pos hch]
  · intro hbr hc hch
    unfold tryFixDateColumns
    simp only [hsel, Bool.not_true, Bool.false_eq_true, if_false, htbl]
    simp only [getDateColumns, hcat, Option.map, List.filterMap_cons,
      List.filterMap_nil, id_eq, List.isEmpty_cons, Bool.false_eq_true,
      if_false, hnotstar, List.foldl_cons, List.foldl_nil, hbr, hc, if_true]
    rw [if_pos hch]

/-- C3 (witness): the amended theorem at two concrete queries — one where
the bracket-quoted pattern occurs (and wins although the bare name also
occurs inside it), one where only the bare name occurs; in both, every
occurrence of the chosen pattern is rewritten. -/
theorem c3_first_pattern_all_occurrences_witness :
    tryFixDateColumns catD "SELECT [d], [d] FROM T" =
      RustResult.ok
        (some (rustReplace "SELECT [d], [d] FROM T" "[d]" (convertFor "d"))) ∧
    tryFixDateColumns catD "SELECT d, d FROM T" =
      RustResult.ok (some (rustReplace "SELECT d, d FROM T" "d" (convertFor "d"))) :=
  ⟨(c3_first_pattern_all_occurrences catD "SELECT [d], [d] FROM T" "T" "d"
      rfl rfl rfl rfl).1 rfl (by decide),
   (c3_first_pattern_all_occurrences catD "SELECT d, d FROM T" "T" "d"
      rfl rfl rfl rfl).2 rfl rfl (by decide)⟩

/-- C6: when the catalog reports zero DATE columns for the referenced
table, `try_fix_date_columns` reports no change and `execute` sends the
input text unchanged. -/
theorem c6_no_date_columns_no_change (cat : Catalog) (q tbl : String)
    (htbl : extractTableName q = RustResult.ok (some tbl))
    (hcat : cat.dateCols (parseTableName tbl) = some []) :
    tryFixDateColumns cat q = RustResult.ok none ∧
    queryToExecute cat q = RustResult.ok q := by
  have hfix : tryFixDateColumns cat q = RustResult.ok none := by
    unfold tryFixDateColumns
    by_cases hsel : rustStartsWith (rustTrim (rustToUpper q)) "SELECT" = true
    · simp only [hsel, Bool.not_true, Bool.false_eq_true, if_false, htbl]
      simp only [getDateColumns, hcat, Option.map, List.filterMap_nil,
        List.isEmpty_nil, if_true]
    · simp only [Bool.not_eq_true] at hsel
      simp only [hsel, Bool.not_false, if_true]
  refine ⟨hfix, ?_⟩
  unfold queryToExecute
  by_cases hstar : isSelectStarQuery q = true
  · simp only [hstar, if_true, hfix]
  · simp only [Bool.not_eq_true] at hstar
    simp only [hstar, Bool.false_eq_true, if_false]

/-- C6 (witness): the theorem at a concrete query and catalog. -/
theorem c6_no_date_columns_no_change_witness :
    tryFixDateColumns catNoDates "SELECT * FROM T" = RustResult.ok none ∧
    queryToExecute catNoDates "SELECT * FROM T" = RustResult.ok "SELECT * FROM T" :=
  c6_no_date_columns_no_change catNoDates "SELECT * FROM T" "T" rfl rfl

/-- Helper for C5: on an all-decodable catalog response the column-def
loop is a plain map, bracket-quoting non-DATE columns and casting `D`. -/
theorem columnDefs_of_all_some (cols : List (String × String)) :
    ((cols.map (fun p => ((some p.1 : Option String), (some p.2 : Option String)))).filterMap
      (fun r =>
        match r with
        | (some colName, some _) =>
          some (if (["D"] : List String).contains colName then convertFor colName
                else "[" ++ colName ++ "]")
        | _ => none)) =
      cols.map (fun p =>
        if p.1 = "D" then "CONVERT(VARCHAR(10), [D], 23) AS [D]"
        else "[" ++ p.1 ++ "]") := by
  induction cols with
  | nil => rfl
  | cons p rest ih =>
    simp only [List.map_cons, List.filterMap_cons, ih]
    by_cases hd : p.1 = "D"
    · simp [hd, convertFor]
    · have hb : (p.1 == "D") = false := beq_eq_false_iff_ne.mpr hd
      simp [List.contains, hd, hb]

/-- C5: on `SELECT TOP 3 * FROM dbo.T` against a table whose catalog
column list contains exactly the DATE column `D` among others, the
rewrite keeps `TOP 3`, selects each non-`D` column bracket-quoted
verbatim, selects `D` as `CONVERT(VARCHAR(10), [D], 23) AS [D]`, and
reattaches the ` FROM ` clause onward (trimmed) unchanged. -/
theorem c5_top3_rewrite (cat : Catalog) (cols : List (String × String))
    (hcat : cat.allCols (some "dbo", "T") =
      some (cols.map (fun p => (some p.1, some p.2))))
    (hne : cols ≠ []) :
    buildSelectWithCasts cat "SELECT TOP 3 * FROM dbo.T" "dbo.T" ["D"] =
      RustResult.ok (some ("SELECT TOP 3 " ++
        String.intercalate ",\n    " (cols.map (fun p =>
          if p.1 = "D" then "CONVERT(VARCHAR(10), [D], 23) AS [D]"
          else "[" ++ p.1 ++ "]")) ++ "\nFROM dbo.T")) := by
  have hmapne : (cols.map (fun p =>
      if p.1 = "D" then "CONVERT(VARCHAR(10), [D], 23) AS [D]"
      else "[" ++ p.1 ++ "]")) ≠ [] := by
    simp only [ne_eq, List.map_eq_nil_iff]
    exact hne
  have hEmpty := List.isEmpty_eq_false.mpr hmapne
  have key : buildSelectWithCasts cat "SELECT TOP 3 * FROM dbo.T" "dbo.T" ["D"] =
      RustResult.ok (some ("SELECT " ++ "TOP 3 " ++
        String.intercalate ",\n    " (cols.map (fun p =>
          if p.1 = "D" then "CONVERT(VARCHAR(10), [D], 23) AS [D]"
          else "[" ++ p.1 ++ "]")) ++ "\n" ++ "FROM dbo.T")) := by
    unfold buildSelectWithCasts
    rw [show parseTableName "dbo.T" = (some "dbo", "T") from rfl, hcat]
    simp only [columnDefs_of_all_some, hEmpty, Bool.false_eq_true, if_false]
    rfl
  rw [key, String.append_assoc]
  rfl

/-- C5 (witness): the theorem at the concrete catalog `catDboT`. -/
theorem c5_top3_rewrite_witness :
    buildSelectWithCasts catDboT "SELECT TOP 3 * FROM dbo.T" "dbo.T" ["D"] =
      RustResult.ok
        (some "SELECT TOP 3 [A],\n    CONVERT(VARCHAR(10), [D], 23) AS [D],\n    [B]\nFROM dbo.T") :=
  c5_top3_rewrite catDboT [("A", "int"), ("D", "date"), ("B", "varchar")] rfl (by decide)

/-- Helper: the per-row cell loop returns the decoded values in column
order, independent of the width bookkeeping. -/
theorem processCells_snd (cols : List ColumnInfo) (i : Nat)
    (cells : List (DriverCol × RawCell)) :
    (processCells cols i cells).2 =
      cells.map (fun p => extractCellValue p.1.ty p.2) := by
  induction cells generalizing cols i with
  | nil => rfl
  | cons p rest ih => simp [processCells, ih]

/-- Helper: the width bookkeeping never changes the number of columns. -/
theorem processCells_fst_length (cols : List ColumnInfo) (i : Nat)
    (cells : List (DriverCol × RawCell)) :
    (processCells cols i cells).1.length = cols.length := by
  induction cells generalizing cols i with
  | nil => rfl
  | cons p rest ih =>
    simp only [processCells]
    rw [ih]
    split
    · simp [List.length_set]
    · rfl

/-- Helper: one row appends exactly its decoded values. -/
theorem processRow_snd (acc : List ColumnInfo × List (List CellValue))
    (row : DriverRow) :
    (processRow acc row).2 = acc.2 ++ [rowValues row] := by
  simp [processRow, processCells_snd, rowValues]

/-- Helper: the row loop over a flat row list. -/
theorem foldl_processRow_snd (l : List DriverRow)
    (acc : List ColumnInfo × List (List CellValue)) :
    (l.foldl processRow acc).2 = acc.2 ++ l.map rowValues := by
  induction l generalizing acc with
  | nil => simp
  | cons r rest ih =>
    simp [List.foldl_cons, ih, processRow_snd, List.append_assoc]

/-- Helper: the nested result-set/row loops equal one loop over the
flattened batch. -/
theorem processResults_acc (results : List (List DriverRow)) :
    results.foldl (fun a rs => rs.foldl processRow a)
        (([], []) : List ColumnInfo × List (List CellValue)) =
      results.flatten.foldl processRow ([], []) :=
  (List.foldl_flatten _ _ _).symm

/-- Helper: `process_results` materialises exactly the decoded rows of the
batch, in order. -/
theorem processResults_rows (results : List (List DriverRow)) (elapsed : Nat) :
    (processResults results elapsed).rows = results.flatten.map rowValues := by
  unfold processResults
  rw [processResults_acc]
  simp [foldl_processRow_snd]

/-- Helper: invariant of the row loop relating column count and row
widths when every driver row has `n` cells. -/
theorem foldl_processRow_inv (n : Nat) (l : List DriverRow)
    (hl : ∀ r ∈ l, r.cells.length = n)
    (acc : List ColumnInfo × List (List CellValue))
    (hacc : acc = ([], []) ∨ (acc.1.length = n ∧ ∀ v ∈ acc.2, v.length = n)) :
    l.foldl processRow acc = ([], []) ∨
      ((l.foldl processRow acc).1.length = n ∧
        ∀ v ∈ (l.foldl processRow acc).2, v.length = n) := by
  induction l generalizing acc with
  | nil => simpa using hacc
  | cons r rest ih =>
    rw [List.foldl_cons]
    apply ih
    · intro r' hr'
      exact hl r' (List.mem_cons_of_mem _ hr')
    · right
      have hr : r.cells.length = n := hl r (List.mem_cons_self _ _)
      constructor
      · show (processCells _ 0 r.cells).1.length = n
        rw [processCells_fst_length]
        by_cases hE : acc.1.isEmpty = true
        · simp only [hE, if_true, initColumns, List.length_map]
          exact hr
        · simp only [hE, if_false]
          rcases hacc with h | ⟨h1, _⟩
          · rw [h] at hE
            simp at hE
          · exact h1
      · rw [processRow_snd]
        intro v hv
        rcases List.mem_append.mp hv with h | h
        · rcases hacc with ha | ⟨_, h2⟩
          · rw [ha] at h
            simp at h
          · exact h2 v h
        · rw [List.mem_singleton.mp h]
          simp only [rowValues, List.length_map]
          exact hr

/-- C1 (counterexample): a batch whose two result sets have different
column counts yields a second row with 2 values while `columns` has
length 1. -/
theorem c1_counterexample :
    (processResults [[rowA], [rowXY]] 0).columns.length = 1 ∧
    (processResults [[rowA], [rowXY]] 0).rows =
      [[CellValue.Int 1], [CellValue.Int 1, CellValue.Int 2]] :=
  ⟨rfl, rfl⟩

/-- C1 (amended): every row of `rows` holds exactly one decoded value per
column of its originating driver row, in that row's column order; and
when every driver row of the batch has the same column count, every row
has exactly `columns.length` values. -/
theorem c1_rows_match_columns (results : List (List DriverRow)) (elapsed n : Nat)
    (h : ∀ rs ∈ results, ∀ r ∈ rs, r.cells.length = n) :
    (processResults results elapsed).rows = results.flatten.map rowValues ∧
    ∀ row ∈ (processResults results elapsed).rows,
      row.length = (processResults results elapsed).columns.length := by
  refine ⟨processResults_rows results elapsed, ?_⟩
  have hl : ∀ r ∈ results.flatten, r.cells.length = n := by
    intro r hr
    rcases List.mem_flatten.mp hr with ⟨rs, hrs, hr'⟩
    exact h rs hrs r hr'
  have hc := foldl_processRow_inv n results.flatten hl ([], []) (Or.inl rfl)
  intro row hrow
  have hrows : (processResults results elapsed).rows =
      (results.flatten.foldl processRow ([], [])).2 := by
    unfold processResults
    rw [processResults_acc]
  have hcols : (processResults results elapsed).columns =
      (results.flatten.foldl processRow ([], [])).1 := by
    unfold processResults
    rw [processResults_acc]
  rw [hrows] at hrow
  rw [hcols]
  rcases hc with hz | ⟨h1, h2⟩
  · rw [hz] at hrow
    simp at hrow
  · rw [h1]
    exact h2 row hrow

/-- C1 (witness): the amended theorem on a one-result-set batch of
two-column rows. -/
theorem c1_rows_match_columns_witness :
    (∀ rs ∈ [[rowXY]], ∀ r ∈ rs, r.cells.length = 2) ∧
    ∀ row ∈ (processResults [[rowXY]] 0).rows,
      row.length = (processResults [[rowXY]] 0).columns.length :=
  ⟨by decide, (c1_rows_match_columns [[rowXY]] 0 2 (by decide)).2⟩

/-- C4: `extract_cell_value` is a total function; for tags in the known
dispatch table a cell that is NULL or fails to decode as the declared
type yields `Null`; for tags outside the table the probes run in the
fixed order text, temporal, 64-bit integer, 64-bit float,
decimal-as-text, first success winning; and when every probe fails the
result is a bracketed rendering of the tag. -/
theorem c4_decoder_total (t : ColumnType) (c : RawCell) :
    (t ∉ fallbackTags → rawDecodeOk t c = false →
      extractCellValue t c = CellValue.Null) ∧
    (t ∈ fallbackTags → extractCellValue t c = probeSpec t c) ∧
    (t ∈ fallbackTags → rawDecodeOk t c = false →
      extractCellValue t c = CellValue.String ("<" ++ columnTypeDebug t ++ ">")) := by
  refine ⟨?_, ?_, ?_⟩
  · intro hmem hdec
    cases t <;>
      first
        | exact absurd (by decide) hmem
        | (cases c <;>
            simp_all [extractCellValue, rawDecodeOk, getBool, getU8, getI16,
              getI32, getI64, getF32, getF64, getNumeric, getStr, getNaiveDT,
              getGuid, getBytes])
  · intro hmem
    cases t <;>
      first
        | exact absurd hmem (by decide)
        | (cases c <;> rfl)
  · intro hmem hdec
    cases t <;>
      first
        | exact absurd hmem (by decide)
        | (cases c <;>
            first
              | rfl
              | simp_all [rawDecodeOk, getStr, getNaiveDT, getI64, getF64,
                  getNumeric])

/-- C4 (witness): a tag outside the dispatch table with a textual raw
value takes the probe path. -/
theorem c4_decoder_total_witness :
    (ColumnType.intn ∈ fallbackTags) ∧
    extractCellValue ColumnType.intn (RawCell.str "x") =
      probeSpec ColumnType.intn (RawCell.str "x") :=
  ⟨by decide, (c4_decoder_total ColumnType.intn (RawCell.str "x")).2.1 (by decide)⟩

/-- C7: `start_query` is a no-op when the query text trims to empty or a
query is already loading; otherwise it sets the loading flag, a second
call is a no-op, and an empty completion poll leaves the started state
unchanged, so the no-op persists until completion is observed. -/
theorem c7_start_query (s : AppState) (now : Nat) :
    ((rustTrim s.query = "" ∨ s.isLoading = true) → startQuery s = s) ∧
    (¬(rustTrim s.query = "" ∨ s.isLoading = true) →
      (startQuery s).isLoading = true ∧
      startQuery (startQuery s) = startQuery s ∧
      checkQueryCompletion (startQuery s) ChannelRead.empty now = startQuery s) := by
  constructor
  · intro h
    unfold startQuery
    rw [if_pos h]
  · intro h
    have hs : startQuery s =
        { s with isLoading := true, error := none, message := none,
                 spinnerFrame := 0, pendingQuery := true,
                 pendingQueryText := some s.query } := by
      unfold startQuery
      rw [if_neg h]
    refine ⟨by rw [hs], ?_, ?_⟩
    · rw [hs]
      unfold startQuery
      simp
    · rw [hs]
      unfold checkQueryCompletion
      simp

/-- C7 (witness): starting from an idle state with a nonempty query. -/
theorem c7_start_query_witness :
    (startQuery appIdle).isLoading = true ∧
    startQuery (startQuery appIdle) = startQuery appIdle :=
  ⟨((c7_start_query appIdle 0).2 (by decide)).1,
   ((c7_start_query appIdle 0).2 (by decide)).2.1⟩

/-- C8: observing an error outcome records no history entry, leaves the
published result unchanged, sets the error message, clears the loading
flag and empties the pending-query slot. -/
theorem c8_error_completion (s : AppState) (msg : String) (now : Nat)
    (h : s.pendingQuery = true) :
    (checkQueryCompletion s (ChannelRead.received (Except.error msg)) now).history
        = s.history ∧
    (checkQueryCompletion s (ChannelRead.received (Except.error msg)) now).result
        = s.result ∧
    (checkQueryCompletion s (ChannelRead.received (Except.error msg)) now).error
        = some msg ∧
    (checkQueryCompletion s (ChannelRead.received (Except.error msg)) now).isLoading
        = false ∧
    (checkQueryCompletion s (ChannelRead.received (Except.error msg)) now).pendingQuery
        = false ∧
    (checkQueryCompletion s (ChannelRead.received (Except.error msg)) now).pendingQueryText
        = none := by
  unfold checkQueryCompletion
  simp [h]

/-- C8 (witness): the theorem at a concrete loading state. -/
theorem c8_error_completion_witness :
    (checkQueryCompletion appLoading (ChannelRead.received (Except.error "boom")) 0).history
        = appLoading.history ∧
    (checkQueryCompletion appLoading (ChannelRead.received (Except.error "boom")) 0).result
        = appLoading.result ∧
    (checkQueryCompletion appLoading (ChannelRead.received (Except.error "boom")) 0).error
        = some "boom" ∧
    (checkQueryCompletion appLoading (ChannelRead.received (Except.error "boom")) 0).isLoading
        = false ∧
    (checkQueryCompletion appLoading (ChannelRead.received (Except.error "boom")) 0).pendingQuery
        = false ∧
    (checkQueryCompletion appLoading (ChannelRead.received (Except.error "boom")) 0).pendingQueryText
        = none :=
  c8_error_completion appLoading "boom" 0 rfl

/-- Helper: the eviction loop drops from the front. -/
theorem evictOldest_eq_drop (l : List HistoryEntry) (m : Nat) :
    evictOldest l m = l.drop (l.length - m) := by
  induction l with
  | nil => simp [evictOldest]
  | cons e rest ih =>
    simp only [evictOldest]
    by_cases h : (e :: rest).length > m
    · rw [if_pos h, ih]
      have hk : (e :: rest).length - m = (rest.length - m) + 1 := by
        simp only [List.length_cons]
        simp only [List.length_cons] at h
        omega
      rw [hk, List.drop_succ_cons]
    · rw [if_neg h]
      have hk : (e :: rest).length - m = 0 := by
        simp only [List.length_cons] at h ⊢
        omega
      rw [hk, List.drop_zero]

/-- Helper: the eviction loop leaves `min` of length and capacity. -/
theorem evictOldest_length (l : List HistoryEntry) (m : Nat) :
    (evictOldest l m).length = min l.length m := by
  rw [evictOldest_eq_drop, List.length_drop]
  omega

/-- Helper: an add whose query matches the last entry is a full no-op. -/
theorem add_dup (h : QueryHistory) (q db : String) (e : Nat) (rc : Option Nat)
    (now : Nat) (last : HistoryEntry)
    (hl : h.entries.getLast? = some last)
    (ht : rustTrim last.query = rustTrim q) :
    h.add q e rc db now = h := by
  unfold QueryHistory.add
  rw [hl]
  simp [ht]

/-- Helper: a non-duplicate add pushes the entry and evicts from the
front. -/
theorem add_push (h : QueryHistory) (q db : String) (e : Nat) (rc : Option Nat)
    (now : Nat)
    (hnd : h.entries.getLast?.map (fun last => rustTrim last.query)
        ≠ some (rustTrim q)) :
    h.add q e rc db now =
      { h with
          entries := evictOldest (h.entries ++ [⟨q, now, e, rc, db⟩]) h.maxEntries,
          currentIndex := none } := by
  unfold QueryHistory.add
  cases hl : h.entries.getLast? with
  | none => simp
  | some last =>
    have hb : (rustTrim last.query == rustTrim q) = false := by
      apply beq_eq_false_iff_ne.mpr
      intro hEq
      apply hnd
      rw [hl, Option.map_some']
      exact congrArg some hEq
    simp [hb]

/-- C9: `QueryHistory::add` deduplicates only against the immediately
preceding entry under trimmed-whitespace equality — an add matching the
last entry is a full no-op, and two successive adds of the same trimmed
text collapse to one — and a non-duplicate add appends the entry and
evicts the oldest entries first, so the length never exceeds the
configured maximum. -/
theorem c9_history_add :
    (∀ (h : QueryHistory) (q db : String) (e : Nat) (rc : Option Nat)
        (now : Nat) (last : HistoryEntry),
       h.entries.getLast? = some last → rustTrim last.query = rustTrim q →
       h.add q e rc db now = h) ∧
    (∀ (h : QueryHistory) (q q' db db' : String) (e e' : Nat)
        (rc rc' : Option Nat) (now now' : Nat),
       rustTrim q = rustTrim q' →
       (h.add q e rc db now).add q' e' rc' db' now' = h.add q e rc db now) ∧
    (∀ (h : QueryHistory) (q db : String) (e : Nat) (rc : Option Nat) (now : Nat),
       h.entries.length ≤ h.maxEntries →
       (h.add q e rc db now).entries.length ≤ h.maxEntries) ∧
    (∀ (h : QueryHistory) (q db : String) (e : Nat) (rc : Option Nat) (now : Nat),
       h.entries.getLast?.map (fun last => rustTrim last.query) ≠ some (rustTrim q) →
       (h.add q e rc db now).entries =
         (h.entries ++ [(⟨q, now, e, rc, db⟩ : HistoryEntry)]).drop
           (h.entries.length + 1 - h.maxEntries)) := by
  refine ⟨add_dup, ?_, ?_, ?_⟩
  · intro h q q' db db' e e' rc rc' now now' htrim
    by_cases hnd : h.entries.getLast?.map (fun last => rustTrim last.query)
        = some (rustTrim q)
    · cases hl : h.entries.getLast? with
      | none =>
        rw [hl] at hnd
        simp at hnd
      | some last =>
        rw [hl, Option.map_some'] at hnd
        have ht := Option.some.inj hnd
        rw [add_dup h q db e rc now last hl ht]
        exact add_dup h q' db' e' rc' now' last hl (ht.trans htrim)
    · rw [add_push h q db e rc now hnd]
      by_cases hm : h.maxEntries = 0
      · have hE : evictOldest (h.entries ++ [⟨q, now, e, rc, db⟩]) h.maxEntries
            = [] := by
          rw [evictOldest_eq_drop, hm]
          simp
        rw [hE]
        rw [add_push _ q' db' e' rc' now' (by simp)]
        simp [evictOldest, hm]
      · have hml : 1 ≤ h.maxEntries := Nat.one_le_iff_ne_zero.mpr hm
        have hlast : (evictOldest (h.entries ++ [⟨q, now, e, rc, db⟩])
            h.maxEntries).getLast? = some ⟨q, now, e, rc, db⟩ := by
          rw [evictOldest_eq_drop]
          have hk : (h.entries ++ [(⟨q, now, e, rc, db⟩ : HistoryEntry)]).length
              - h.maxEntries ≤ h.entries.length := by
            simp only [List.length_append, List.length_cons, List.length_nil]
            omega
          rw [List.drop_append_of_le_length hk, List.getLast?_concat]
        exact add_dup _ q' db' e' rc' now' ⟨q, now, e, rc, db⟩ hlast htrim
  · intro h q db e rc now hlen
    by_cases hnd : h.entries.getLast?.map (fun last => rustTrim last.query)
        = some (rustTrim q)
    · cases hl : h.entries.getLast? with
      | none =>
        rw [hl] at hnd
        simp at hnd
      | some last =>
        rw [hl, Option.map_some'] at hnd
        have ht := Option.some.inj hnd
        rw [add_dup h q db e rc now last hl ht]
        exact hlen
    · rw [add_push h q db e rc now hnd]
      show (evictOldest (h.entries ++ [(⟨q, now, e, rc, db⟩ : HistoryEntry)])
          h.maxEntries).length ≤ h.maxEntries
      rw [evictOldest_length]
      omega
  · intro h q db e rc now hnd
    rw [add_push h q db e rc now hnd]
    show evictOldest (h.entries ++ [(⟨q, now, e, rc, db⟩ : HistoryEntry)]) h.maxEntries
        = (h.entries ++ [(⟨q, now, e, rc, db⟩ : HistoryEntry)]).drop
          (h.entries.length + 1 - h.maxEntries)
    rw [evictOldest_eq_drop]
    congr 1
    simp

/-- C9 (witness): duplicate suppression, double-add collapse and the
length bound at a concrete history. -/
theorem c9_history_add_witness :
    histAB.add "SELECT b" 7 (some 3) "Staging" 9 = histAB ∧
    (histAB.add "SELECT c" 7 (some 3) "Staging" 9).add "SELECT c" 8 none "Staging" 10
      = histAB.add "SELECT c" 7 (some 3) "Staging" 9 ∧
    (histAB.add "SELECT c" 7 (some 3) "Staging" 9).entries.length ≤ histAB.maxEntries :=
  ⟨c9_history_add.1 histAB "SELECT b" "Staging" 7 (some 3) 9
      ⟨"SELECT b", 2, 6, some 2, "Staging"⟩ rfl rfl,
   c9_history_add.2.1 histAB "SELECT c" "SELECT c" "Staging" "Staging" 7 8
      (some 3) none 9 10 rfl,
   c9_history_add.2.2.1 histAB "SELECT c" "Staging" 7 (some 3) 9 (by decide)⟩

end SqlTui
